import Mathlib

/-!
Shallow embedding of the traktor-kontrol-x1 protocol layer (src/lib.rs).

Machine integers (`u8`, `u16`) are modelled as `Nat`; wrap-around is made
explicit with `% 2 ^ w` where the source type could overflow.  The 24-byte
input report is a function `Fin 24 → Nat`, the 32-byte output report a
function `Nat → Nat` initialised to zero away from offset 0.  The
`HashMap<Button, u8>` of pending LED updates is modelled abstractly as a
function `Button → Option Nat` (its unique-key content) together with entry
lists over which `LedWriter::write` iterates; iteration order is an arbitrary
permutation of the entries.  Fallible USB transfers are modelled as `Except`
values supplied by the transport.
-/

/-- Mirrors `enum FxKnob` in src/lib.rs. -/
inductive FxKnob where
  | DryWet
  | Param1
  | Param2
  | Param3
  deriving DecidableEq, Fintype

/-- Mirrors `enum Knob` in src/lib.rs. -/
inductive Knob where
  | FX1 (k : FxKnob)
  | FX2 (k : FxKnob)
  deriving DecidableEq, Fintype

/-- Mirrors `enum DeckEncoder` in src/lib.rs. -/
inductive DeckEncoder where
  | Browse
  | Loop
  deriving DecidableEq, Fintype

/-- Mirrors `enum Encoder` in src/lib.rs. -/
inductive Encoder where
  | DeckA (e : DeckEncoder)
  | DeckB (e : DeckEncoder)
  deriving DecidableEq, Fintype

/-- Mirrors `enum EncoderState` in src/lib.rs. -/
inductive EncoderState where
  | None
  | CW
  | CCW
  deriving DecidableEq, Fintype

/-- Mirrors `enum FxButton` in src/lib.rs. -/
inductive FxButton where
  | On
  | Button1
  | Button2
  | Button3
  deriving DecidableEq, Fintype

/-- Mirrors `enum DeckButton` in src/lib.rs. -/
inductive DeckButton where
  | Browse
  | FX1
  | FX2
  | Loop
  | In
  | Out
  | BeatBackward
  | BeatForward
  | Cue
  | Cup
  | Play
  | Sync
  deriving DecidableEq, Fintype

/-- Mirrors `enum Button` in src/lib.rs. -/
inductive Button where
  | Shift
  | Hotcue
  | FX1 (b : FxButton)
  | FX2 (b : FxButton)
  | DeckA (b : DeckButton)
  | DeckB (b : DeckButton)
  deriving DecidableEq, Fintype

/-- Mirrors `rusb::Error` (the transport error enum of the rusb crate). -/
inductive RusbError where
  | Io
  | InvalidParam
  | Access
  | NoDevice
  | NotFound
  | Busy
  | Timeout
  | Overflow
  | Pipe
  | Interrupted
  | NoMem
  | NotSupported
  | BadDescriptor
  | Other
  deriving DecidableEq, Fintype

/-- Mirrors `enum X1Error` in src/lib.rs: `Timeout` and `Libusb(rusb::Error)`. -/
inductive X1Error where
  | Timeout
  | Libusb (cause : RusbError)
  deriving DecidableEq

/-- `const LED_MAX: u8 = 0x7F` in src/lib.rs. -/
def LED_MAX : Nat := 0x7F

/-- Mirrors `fn hex2bin(hex: u8) -> [u8; 8]` in src/lib.rs: the loop fills
`bin[i] = (hex >> i) & 1` for `i` in `0..8`; the resulting 8-element array is
modelled as a function on `Fin 8`. -/
def hex2bin (hex : Nat) : Fin 8 → Nat :=
  fun i => (hex >>> i.val) &&& 1

/-- Mirrors `struct X1State` in src/lib.rs: `button_bits: [[u8; 8]; 5]` and
`knob_bytes: [(u8, u8); 8]`. -/
structure X1State where
  button_bits : Fin 5 → Fin 8 → Nat
  knob_bytes : Fin 8 → Nat × Nat

/-- Mirrors `X1State::new(buffer: [u8; 24])` in src/lib.rs: status bytes
`buffer[1..=5]` are bit-expanded into `button_bits` groups 0–4, and the eight
knob byte pairs are taken at the interleaved offsets listed in the source. -/
def X1State.new (buffer : Fin 24 → Nat) : X1State where
  button_bits := fun g i => hex2bin (buffer ⟨g.val + 1, by omega⟩) i
  knob_bytes := fun k =>
    match k with
    | 0 => (buffer 16, buffer 17)
    | 1 => (buffer 20, buffer 21)
    | 2 => (buffer 22, buffer 23)
    | 3 => (buffer 18, buffer 19)
    | 4 => (buffer 12, buffer 13)
    | 5 => (buffer 10, buffer 11)
    | 6 => (buffer 8, buffer 9)
    | 7 => (buffer 14, buffer 15)

/-- The `(group, bit)` address table (Table A) inlined in
`X1State::is_button_pressed` in src/lib.rs, transcribed arm by arm. -/
def buttonAddress : Button → Fin 5 × Fin 8
  | .Shift => (4, 4)
  | .Hotcue => (4, 7)
  | .FX1 .On => (3, 4)
  | .FX1 .Button1 => (3, 5)
  | .FX1 .Button2 => (3, 6)
  | .FX1 .Button3 => (3, 7)
  | .FX2 .On => (4, 0)
  | .FX2 .Button1 => (4, 1)
  | .FX2 .Button2 => (4, 2)
  | .FX2 .Button3 => (4, 3)
  | .DeckA .Browse => (3, 0)
  | .DeckA .FX1 => (1, 1)
  | .DeckA .FX2 => (1, 0)
  | .DeckA .Loop => (3, 2)
  | .DeckA .In => (2, 4)
  | .DeckA .Out => (0, 3)
  | .DeckA .BeatBackward => (0, 2)
  | .DeckA .BeatForward => (2, 5)
  | .DeckA .Cue => (0, 1)
  | .DeckA .Cup => (2, 6)
  | .DeckA .Play => (0, 0)
  | .DeckA .Sync => (2, 7)
  | .DeckB .Browse => (3, 1)
  | .DeckB .FX1 => (4, 6)
  | .DeckB .FX2 => (4, 5)
  | .DeckB .Loop => (3, 3)
  | .DeckB .In => (1, 4)
  | .DeckB .Out => (2, 3)
  | .DeckB .BeatBackward => (2, 2)
  | .DeckB .BeatForward => (1, 5)
  | .DeckB .Cue => (2, 1)
  | .DeckB .Cup => (1, 6)
  | .DeckB .Play => (2, 0)
  | .DeckB .Sync => (1, 7)

/-- Mirrors `X1State::is_button_pressed` in src/lib.rs: look the button up in
Table A and test `self.button_bits[group][bit] > 0`. -/
def X1State.is_button_pressed (s : X1State) (button : Button) : Bool :=
  let address := buttonAddress button
  decide (s.button_bits address.1 address.2 > 0)

/-- The knob-to-pair-index table inlined in `X1State::read_knob` in
src/lib.rs (`&self.knob_bytes[i]` for `i` in 0–7). -/
def knobIndex : Knob → Fin 8
  | .FX1 .DryWet => 0
  | .FX1 .Param1 => 1
  | .FX1 .Param2 => 2
  | .FX1 .Param3 => 3
  | .FX2 .DryWet => 4
  | .FX2 .Param1 => 5
  | .FX2 .Param2 => 6
  | .FX2 .Param3 => 7

/-- `u16::from_be_bytes([c1, c2])`: big-endian combination of two bytes into a
16-bit value, with the u16 width made explicit. -/
def u16_from_be_bytes (c1 c2 : Nat) : Nat :=
  (c1 * 256 + c2) % 2 ^ 16

/-- Mirrors `X1State::read_knob` in src/lib.rs. -/
def X1State.read_knob (s : X1State) (knob : Knob) : Nat :=
  let p := s.knob_bytes (knobIndex knob)
  u16_from_be_bytes p.1 p.2

/-- Mirrors `X1State::read_encoder` in src/lib.rs, whose body is `todo!()`:
the unimplemented stub is embedded as the total function that never produces
an `EncoderState`, returning `none` on every input. -/
def X1State.read_encoder (_s : X1State) (_encoder : Encoder) : Option EncoderState :=
  none

/-- The output byte-offset table (Table B) inlined in `LedWriter::write` in
src/lib.rs; the `_ => continue` arm (DeckA/DeckB `Browse` and `Loop`) is
`none`. -/
def ledAddress : Button → Option Nat
  | .Shift => some 29
  | .Hotcue => some 30
  | .FX1 .On => some 8
  | .FX1 .Button1 => some 7
  | .FX1 .Button2 => some 6
  | .FX1 .Button3 => some 5
  | .FX2 .On => some 4
  | .FX2 .Button1 => some 3
  | .FX2 .Button2 => some 2
  | .FX2 .Button3 => some 1
  | .DeckA .FX1 => some 25
  | .DeckA .FX2 => some 26
  | .DeckA .In => some 18
  | .DeckA .Out => some 17
  | .DeckA .BeatBackward => some 20
  | .DeckA .BeatForward => some 19
  | .DeckA .Cue => some 22
  | .DeckA .Cup => some 21
  | .DeckA .Play => some 24
  | .DeckA .Sync => some 23
  | .DeckB .FX1 => some 27
  | .DeckB .FX2 => some 28
  | .DeckB .In => some 16
  | .DeckB .Out => some 15
  | .DeckB .BeatBackward => some 14
  | .DeckB .BeatForward => some 13
  | .DeckB .Cue => some 12
  | .DeckB .Cup => some 11
  | .DeckB .Play => some 10
  | .DeckB .Sync => some 9
  | _ => none

/-- One iteration of the `for (button, on) in self.leds` loop body in
`LedWriter::write`: `buffer[address] = on.min(LED_MAX)` when the button has a
Table B entry, otherwise `continue`. -/
def applyLed (buffer : Nat → Nat) (p : Button × Nat) : Nat → Nat :=
  match ledAddress p.1 with
  | some address => Function.update buffer address (min p.2 LED_MAX)
  | none => buffer

/-- The `for` loop of `LedWriter::write` run over one iteration order of the
pending-update entries. -/
def writeLoop (buffer : Nat → Nat) (l : List (Button × Nat)) : Nat → Nat :=
  l.foldl applyLed buffer

/-- The buffer as initialised at the top of `LedWriter::write`:
`[0u8; 32]` followed by `buffer[0] = 0x0c`. -/
def initBuf : Nat → Nat :=
  fun o => if o = 0 then 0x0C else 0

/-- The 32-byte buffer `LedWriter::write` builds from one iteration order of
the pending LED updates. -/
def ledWriteBuffer (l : List (Button × Nat)) : Nat → Nat :=
  writeLoop initBuf l

/-- All 34 `Button` variants, used to enumerate a canonical entry list of a
pending-update map. -/
def Button.all : List Button :=
  [.Shift, .Hotcue,
   .FX1 .On, .FX1 .Button1, .FX1 .Button2, .FX1 .Button3,
   .FX2 .On, .FX2 .Button1, .FX2 .Button2, .FX2 .Button3,
   .DeckA .Browse, .DeckA .FX1, .DeckA .FX2, .DeckA .Loop, .DeckA .In,
   .DeckA .Out, .DeckA .BeatBackward, .DeckA .BeatForward, .DeckA .Cue,
   .DeckA .Cup, .DeckA .Play, .DeckA .Sync,
   .DeckB .Browse, .DeckB .FX1, .DeckB .FX2, .DeckB .Loop, .DeckB .In,
   .DeckB .Out, .DeckB .BeatBackward, .DeckB .BeatForward, .DeckB .Cue,
   .DeckB .Cup, .DeckB .Play, .DeckB .Sync]

/-- The entries of a pending-update map (the content of the
`HashMap<Button, u8>` field `leds` of `LedWriter`), in one canonical order. -/
def entriesOf (m : Button → Option Nat) : List (Button × Nat) :=
  Button.all.filterMap fun b => (m b).map fun v => (b, v)

/-- Mirrors `LedWriter::set_led` in src/lib.rs: `self.leds.insert(button, on)`
on the map content. -/
def set_led (m : Button → Option Nat) (button : Button) (intensity : Nat) :
    Button → Option Nat :=
  fun b => if b = button then some intensity else m b

/-- The 32-byte buffer `LedWriter::write` builds from the pending-update map
(canonical iteration order; order-independence is proved separately). -/
def LedWriter.writeBuffer (m : Button → Option Nat) : Nat → Nat :=
  ledWriteBuffer (entriesOf m)

/-- The `.map_err` closure used by every bulk transfer in src/lib.rs:
`rusb::Error::Timeout => X1Error::Timeout`, anything else wrapped as
`X1Error::Libusb(err)`. -/
def mapTransferErr (err : RusbError) : X1Error :=
  match err with
  | .Timeout => .Timeout
  | e => .Libusb e

/-- Mirrors `TraktorX1::read_state` in src/lib.rs: the transport read either
fails (mapped through `mapTransferErr`) or yields the filled 24-byte buffer,
which is decoded with `X1State::new`. -/
def read_state (readResult : Except RusbError (Fin 24 → Nat)) :
    Except X1Error X1State :=
  match readResult with
  | .error e => .error (mapTransferErr e)
  | .ok buffer => .ok (X1State.new buffer)

/-- Mirrors `LedWriter::write` in src/lib.rs: build the 32-byte buffer, send
it with `write_bulk` (whose outcome may depend on the buffer), then read the
1-byte confirmation; each failing transfer is mapped through
`mapTransferErr` and returned. -/
def LedWriter.write (m : Button → Option Nat)
    (writeBulk : (Nat → Nat) → Except RusbError Nat)
    (readConfirm : Except RusbError Nat) : Except X1Error Unit :=
  match writeBulk (LedWriter.writeBuffer m) with
  | .error e => .error (mapTransferErr e)
  | .ok _ =>
    match readConfirm with
    | .error e => .error (mapTransferErr e)
    | .ok _ => .ok ()

/-- Scenario input report: status byte 1 is `0x10` (bit 4 of group 0), all
other bytes zero. -/
def reportGroup0Bit4 : Fin 24 → Nat :=
  fun i => if i.val = 1 then 0x10 else 0

/-- Scenario input report: bytes at offsets 16 and 17 are `(0x01, 0x2C)`, all
other bytes zero. -/
def knobReport : Fin 24 → Nat :=
  fun i => if i.val = 16 then 0x01 else if i.val = 17 then 0x2C else 0

/-- Scenario input report: junk at the unused bytes 0, 6 and 7, zero
elsewhere. -/
def reportJunk067 : Fin 24 → Nat :=
  fun i => if i.val = 0 then 255 else if i.val = 6 then 7 else if i.val = 7 then 9 else 0

/-- Scenario input report: all 24 bytes zero. -/
def reportZero : Fin 24 → Nat :=
  fun _ => 0

/-! ### Supporting lemmas -/

lemma and_one_pos_iff_testBit (x i : Nat) : 0 < (x >>> i) &&& 1 ↔ x.testBit i := by
  rw [Nat.and_one_is_mod, Nat.shiftRight_eq_div_pow, Nat.testBit_to_div_mod]
  simp only [decide_eq_true_eq]
  omega

lemma ledAddress_injOn :
    ∀ b1 b2 : Button, (ledAddress b1).isSome → ledAddress b1 = ledAddress b2 → b1 = b2 := by
  decide

lemma ledAddress_inj {b1 b2 : Button} {a : Nat}
    (h1 : ledAddress b1 = some a) (h2 : ledAddress b2 = some a) : b1 = b2 :=
  ledAddress_injOn b1 b2 (by rw [h1]; rfl) (h1.trans h2.symm)

lemma ledAddress_ne_some_zero : ∀ b : Button, ledAddress b ≠ some 0 := by
  decide

lemma writeLoop_untouched {l : List (Button × Nat)} {o : Nat}
    (h : ∀ p ∈ l, ledAddress p.1 ≠ some o) (buffer : Nat → Nat) :
    writeLoop buffer l o = buffer o := by
  induction l generalizing buffer with
  | nil => rfl
  | cons p t ih =>
    have hp := h p (List.mem_cons_self p t)
    have ht : ∀ q ∈ t, ledAddress q.1 ≠ some o :=
      fun q hq => h q (List.mem_cons_of_mem p hq)
    rw [writeLoop, List.foldl_cons, ← writeLoop, ih ht]
    unfold applyLed
    cases hA : ledAddress p.1 with
    | none => rfl
    | some a =>
      have hne : o ≠ a := fun he => hp (by rw [hA, he])
      simp [Function.update_noteq hne]

lemma find?_led_some {l : List (Button × Nat)} {q : Button × Nat} {o : Nat}
    (h : l.find? (fun p => decide (ledAddress p.1 = some o)) = some q) :
    ledAddress q.1 = some o := by
  have hq := List.find?_some h
  simpa using hq

lemma writeLoop_char {l : List (Button × Nat)}
    (hnd : (l.map Prod.fst).Nodup) (buffer : Nat → Nat) (o : Nat) :
    writeLoop buffer l o =
      ((l.find? fun p => decide (ledAddress p.1 = some o)).map
        fun p => min p.2 LED_MAX).getD (buffer o) := by
  induction l generalizing buffer with
  | nil => rfl
  | cons hd t ih =>
    rw [List.map_cons, List.nodup_cons] at hnd
    rw [writeLoop, List.foldl_cons, ← writeLoop, ih hnd.2 (applyLed buffer hd)]
    by_cases hp : ledAddress hd.1 = some o
    · have hnone : t.find? (fun q => decide (ledAddress q.1 = some o)) = none := by
        rw [List.find?_eq_none]
        intro q hq hdq
        have hqa : ledAddress q.1 = some o := of_decide_eq_true hdq
        have hk : q.1 = hd.1 := ledAddress_inj hqa hp
        exact hnd.1 (hk ▸ List.mem_map_of_mem Prod.fst hq)
      have hfind : (hd :: t).find? (fun q => decide (ledAddress q.1 = some o)) = some hd :=
        List.find?_cons_of_pos t (decide_eq_true hp)
      rw [hnone, hfind]
      simp only [Option.map_none', Option.getD_none, Option.map_some', Option.getD_some]
      simp [applyLed, hp]
    · have hfind : (hd :: t).find? (fun q => decide (ledAddress q.1 = some o)) =
          t.find? (fun q => decide (ledAddress q.1 = some o)) :=
        List.find?_cons_of_neg t (by simpa using hp)
      rw [hfind]
      cases hf : t.find? (fun q => decide (ledAddress q.1 = some o)) with
      | some q => rfl
      | none =>
        simp only [Option.map_none', Option.getD_none]
        unfold applyLed
        cases hA : ledAddress hd.1 with
        | none => rfl
        | some a =>
          have hne : o ≠ a := fun he => hp (by rw [hA, he])
          simp [Function.update_noteq hne]

lemma nodup_keys_val_eq {l : List (Button × Nat)} (hnd : (l.map Prod.fst).Nodup)
    {b : Button} {v1 v2 : Nat} (h1 : (b, v1) ∈ l) (h2 : (b, v2) ∈ l) : v1 = v2 := by
  induction l with
  | nil => cases h1
  | cons p t ih =>
    rw [List.map_cons, List.nodup_cons] at hnd
    rcases List.mem_cons.mp h1 with e1 | m1
    · rcases List.mem_cons.mp h2 with e2 | m2
      · have he : ((b, v1) : Button × Nat) = (b, v2) := e1.trans e2.symm
        exact (Prod.ext_iff.mp he).2
      · have hb : b ∈ t.map Prod.fst := List.mem_map.mpr ⟨(b, v2), m2, rfl⟩
        have hp1 : p.1 = b := by rw [← e1]
        exact absurd hb (hp1 ▸ hnd.1)
    · rcases List.mem_cons.mp h2 with e2 | m2
      · have hb : b ∈ t.map Prod.fst := List.mem_map.mpr ⟨(b, v1), m1, rfl⟩
        have hp1 : p.1 = b := by rw [← e2]
        exact absurd hb (hp1 ▸ hnd.1)
      · exact ih hnd.2 m1 m2

lemma ledWriteBuffer_ext {l1 l2 : List (Button × Nat)}
    (h1 : (l1.map Prod.fst).Nodup) (h2 : (l2.map Prod.fst).Nodup)
    (hmem : ∀ b v a, ledAddress b = some a → ((b, v) ∈ l1 ↔ (b, v) ∈ l2)) :
    ledWriteBuffer l1 = ledWriteBuffer l2 := by
  funext o
  rw [ledWriteBuffer, ledWriteBuffer, writeLoop_char h1, writeLoop_char h2]
  cases hf1 : l1.find? (fun p => decide (ledAddress p.1 = some o)) with
  | none =>
    cases hf2 : l2.find? (fun p => decide (ledAddress p.1 = some o)) with
    | none => rfl
    | some q =>
      have hqa : ledAddress q.1 = some o := find?_led_some hf2
      have hq1 : (q.1, q.2) ∈ l1 :=
        (hmem q.1 q.2 o hqa).mpr (by simpa using List.mem_of_find?_eq_some hf2)
      have := List.find?_eq_none.mp hf1 _ hq1
      simp [hqa] at this
  | some q =>
    have hqa : ledAddress q.1 = some o := find?_led_some hf1
    have hq2 : (q.1, q.2) ∈ l2 :=
      (hmem q.1 q.2 o hqa).mp (by simpa using List.mem_of_find?_eq_some hf1)
    cases hf2 : l2.find? (fun p => decide (ledAddress p.1 = some o)) with
    | none =>
      have := List.find?_eq_none.mp hf2 _ hq2
      simp [hqa] at this
    | some r =>
      have hra : ledAddress r.1 = some o := find?_led_some hf2
      have hk : r.1 = q.1 := ledAddress_inj hra hqa
      have hr2 : (q.1, r.2) ∈ l2 := by
        rw [← hk]
        simpa using List.mem_of_find?_eq_some hf2
      have hv : q.2 = r.2 := nodup_keys_val_eq h2 hq2 hr2
      simp [hv]

lemma Button.all_complete : ∀ b : Button, b ∈ Button.all := by
  decide

lemma Button.all_nodup : Button.all.Nodup := by
  decide

lemma mem_entriesOf {m : Button → Option Nat} {b : Button} {v : Nat} :
    (b, v) ∈ entriesOf m ↔ m b = some v := by
  constructor
  · intro h
    rcases List.mem_filterMap.mp h with ⟨a, _, ha⟩
    rcases Option.map_eq_some'.mp ha with ⟨w, hw, he⟩
    have h1 : a = b := (Prod.ext_iff.mp he).1
    have h2 : w = v := (Prod.ext_iff.mp he).2
    rw [← h1, ← h2]
    exact hw
  · intro h
    exact List.mem_filterMap.mpr ⟨b, Button.all_complete b, by rw [h]; rfl⟩

lemma keys_filterMap_sublist (m : Button → Option Nat) :
    ∀ l : List Button,
      ((l.filterMap fun b => (m b).map fun v => (b, v)).map Prod.fst).Sublist l := by
  intro l
  induction l with
  | nil => simp
  | cons b t ih =>
    cases hm : m b with
    | none =>
      simp only [List.filterMap_cons, hm, Option.map_none']
      exact ih.cons b
    | some v =>
      simp only [List.filterMap_cons, hm, Option.map_some', List.map_cons]
      exact ih.cons₂ b

lemma keys_entriesOf_nodup (m : Button → Option Nat) :
    ((entriesOf m).map Prod.fst).Nodup :=
  List.Nodup.sublist (keys_filterMap_sublist m Button.all) Button.all_nodup

lemma u16_from_be_bytes_of_lt {c1 c2 : Nat} (h1 : c1 < 256) (h2 : c2 < 256) :
    u16_from_be_bytes c1 c2 = c1 * 256 + c2 := by
  rw [u16_from_be_bytes]
  omega

/-! ### Claim theorems -/

/-- C1: for every 24-byte input report and every `Button`, `is_button_pressed`
on the decoded snapshot is true exactly when the bit at the button's Table A
address (group `g`, bit `i`) is set, LSB-first, in report byte `g + 1`; and
for the report whose only set status bit is group 0 / bit 4 (status bytes
`[_, 0x10, 0, 0, 0, 0, ...]`), which no Table A entry maps to, every button
query returns false. -/
theorem is_button_pressed_spec :
    (∀ (buffer : Fin 24 → Nat) (button : Button),
      ((X1State.new buffer).is_button_pressed button = true ↔
        (buffer ⟨(buttonAddress button).1.val + 1, by omega⟩).testBit
          (buttonAddress button).2.val))
    ∧ ∀ button : Button,
        (X1State.new reportGroup0Bit4).is_button_pressed button = false := by
  constructor
  · intro buffer button
    simp only [X1State.is_button_pressed, X1State.new, gt_iff_lt, decide_eq_true_eq]
    exact and_one_pos_iff_testBit _ _
  · decide

/-- C4: `hex2bin` is total and returns the 8-element array whose element `i`
is `(b >> i) & 1`, i.e. `b / 2 ^ i % 2`, the least-significant bit sitting at
index 0 (element `i` is 1 exactly when `Nat.testBit b i`). -/
theorem hex2bin_spec :
    ∀ (b : Nat) (i : Fin 8),
      hex2bin b i = b / 2 ^ i.val % 2 ∧ (hex2bin b i = 1 ↔ b.testBit i.val) := by
  intro b i
  constructor
  · rw [hex2bin, Nat.and_one_is_mod, Nat.shiftRight_eq_div_pow]
  · rw [hex2bin, Nat.and_one_is_mod, Nat.shiftRight_eq_div_pow, Nat.testBit_to_div_mod]
    simp

/-- C9: `read_encoder` is an unimplemented stub (`todo!()` in the source,
embedded as the constantly-`none` operation): it never produces an
`EncoderState`, for any snapshot and any encoder. -/
theorem read_encoder_unimplemented :
    ∀ (s : X1State) (encoder : Encoder), s.read_encoder encoder = none := by
  intro s encoder
  rfl

/-- C3: for every 24-byte report (bytes in 0–255) `read_knob` on the decoded
snapshot returns the big-endian value `high * 256 + low` of the report bytes
at each knob's fixed offset pair: FX1 DryWet=[16,17], Param1=[20,21],
Param2=[22,23], Param3=[18,19]; FX2 DryWet=[12,13], Param1=[10,11],
Param2=[8,9], Param3=[14,15]. -/
theorem read_knob_spec :
    ∀ buffer : Fin 24 → Nat, (∀ i, buffer i < 256) →
      (X1State.new buffer).read_knob (.FX1 .DryWet) = buffer 16 * 256 + buffer 17
      ∧ (X1State.new buffer).read_knob (.FX1 .Param1) = buffer 20 * 256 + buffer 21
      ∧ (X1State.new buffer).read_knob (.FX1 .Param2) = buffer 22 * 256 + buffer 23
      ∧ (X1State.new buffer).read_knob (.FX1 .Param3) = buffer 18 * 256 + buffer 19
      ∧ (X1State.new buffer).read_knob (.FX2 .DryWet) = buffer 12 * 256 + buffer 13
      ∧ (X1State.new buffer).read_knob (.FX2 .Param1) = buffer 10 * 256 + buffer 11
      ∧ (X1State.new buffer).read_knob (.FX2 .Param2) = buffer 8 * 256 + buffer 9
      ∧ (X1State.new buffer).read_knob (.FX2 .Param3) = buffer 14 * 256 + buffer 15 := by
  intro buffer hb
  refine ⟨?_, ?_, ?_, ?_, ?_, ?_, ?_, ?_⟩ <;>
    exact u16_from_be_bytes_of_lt (hb _) (hb _)

/-- C3 witness: bytes `(0x01, 0x2C)` at offsets 16 and 17 make
`read_knob(FX1.DryWet)` return 300. -/
theorem read_knob_spec_witness :
    (X1State.new knobReport).read_knob (.FX1 .DryWet) = 300 := by
  have h := (read_knob_spec knobReport (by decide)).1
  rw [h]
  decide

/-- C2: the 32-byte buffer `LedWriter::write` builds from any pending-update
map has `0x0C` at offset 0, `min(intensity, 127)` at the Table B offset of
every recorded button that has a Table B entry, and 0 at every other offset
no recorded button targets. -/
theorem ledWriter_buffer_spec :
    ∀ m : Button → Option Nat,
      LedWriter.writeBuffer m 0 = 0x0C
      ∧ (∀ (b : Button) (v a : Nat), m b = some v → ledAddress b = some a →
          LedWriter.writeBuffer m a = min v 127)
      ∧ (∀ o : Nat, o ≠ 0 → (∀ b : Button, (m b).isSome → ledAddress b ≠ some o) →
          LedWriter.writeBuffer m o = 0) := by
  intro m
  refine ⟨?_, ?_, ?_⟩
  · have h0 : ∀ p ∈ entriesOf m, ledAddress p.1 ≠ some 0 :=
      fun p _ => ledAddress_ne_some_zero p.1
    rw [LedWriter.writeBuffer, ledWriteBuffer, writeLoop_untouched h0]
    rfl
  · intro b v a hm hA
    have hmem : (b, v) ∈ entriesOf m := mem_entriesOf.mpr hm
    rw [LedWriter.writeBuffer, ledWriteBuffer, writeLoop_char (keys_entriesOf_nodup m)]
    cases hf : (entriesOf m).find? (fun p => decide (ledAddress p.1 = some a)) with
    | none =>
      have := List.find?_eq_none.mp hf _ hmem
      simp [hA] at this
    | some q =>
      have hqa : ledAddress q.1 = some a := find?_led_some hf
      have hk : q.1 = b := ledAddress_inj hqa hA
      have hq : (b, q.2) ∈ entriesOf m := by
        rw [← hk]
        simpa using List.mem_of_find?_eq_some hf
      have hv : q.2 = v := nodup_keys_val_eq (keys_entriesOf_nodup m) hq hmem
      simp [hv, LED_MAX]
  · intro o ho hno
    have h0 : ∀ p ∈ entriesOf m, ledAddress p.1 ≠ some o := by
      intro p hp
      have hm : m p.1 = some p.2 := mem_entriesOf.mp (by simpa using hp)
      exact hno p.1 (by rw [hm]; rfl)
    rw [LedWriter.writeBuffer, ledWriteBuffer, writeLoop_untouched h0]
    simp [initBuf, ho]

/-- C2 witness: `set_led(Shift, 200)` on an empty writer puts the clamped
value 127 at offset 29 of the encoded buffer. -/
theorem ledWriter_buffer_spec_witness :
    LedWriter.writeBuffer (set_led (fun _ => none) Button.Shift 200) 29 = 127 := by
  have h := (ledWriter_buffer_spec (set_led (fun _ => none) Button.Shift 200)).2.1
    Button.Shift 200 29 rfl rfl
  rw [h]
  decide

/-- C6: repeated `set_led` for the same button before the write is
last-write-wins — inserting `x1` then `x2` yields exactly the buffer of
inserting `x2` alone — and the pending update set keeps unique keys (at most
one entry per button). -/
theorem set_led_last_write_wins :
    ∀ (m : Button → Option Nat) (b : Button) (x1 x2 : Nat),
      LedWriter.writeBuffer (set_led (set_led m b x1) b x2) =
        LedWriter.writeBuffer (set_led m b x2)
      ∧ ((entriesOf (set_led (set_led m b x1) b x2)).map Prod.fst).Nodup := by
  intro m b x1 x2
  constructor
  · have he : set_led (set_led m b x1) b x2 = set_led m b x2 := by
      funext b'
      by_cases h : b' = b <;> simp [set_led, h]
    rw [he]
  · exact keys_entriesOf_nodup _

/-- C7: the buffer `LedWriter::write` builds is independent of the iteration
order of the pending updates — any two entry lists with the same
(button, intensity) pairs (a permutation, with unique keys) produce the same
32-byte buffer. -/
theorem ledWriteBuffer_perm_invariant :
    ∀ l1 l2 : List (Button × Nat),
      (l1.map Prod.fst).Nodup → l1.Perm l2 →
      ledWriteBuffer l1 = ledWriteBuffer l2 := by
  intro l1 l2 hnd hperm
  have hnd2 : (l2.map Prod.fst).Nodup := (hperm.map Prod.fst).nodup_iff.mp hnd
  exact ledWriteBuffer_ext hnd hnd2 (fun b v a _ => hperm.mem_iff)

/-- C7 witness: swapping the two entries of a concrete pending set leaves the
encoded buffer unchanged. -/
theorem ledWriteBuffer_perm_invariant_witness :
    ledWriteBuffer [(Button.Shift, 10), (Button.Hotcue, 20)] =
      ledWriteBuffer [(Button.Hotcue, 20), (Button.Shift, 10)] :=
  ledWriteBuffer_perm_invariant _ _ (by decide) (List.Perm.swap _ _ _)

/-- C8: exactly the four buttons DeckA/DeckB Browse and Loop have no Table B
entry, and recording `set_led` for any of them (any intensity) leaves the
encoded buffer byte-for-byte identical to the buffer built without that
call. -/
theorem set_led_no_table_entry_spec :
    (∀ b : Button, ledAddress b = none ↔
      (b = .DeckA .Browse ∨ b = .DeckA .Loop ∨ b = .DeckB .Browse ∨ b = .DeckB .Loop))
    ∧ ∀ b : Button, ledAddress b = none →
        ∀ (m : Button → Option Nat) (v : Nat),
          LedWriter.writeBuffer (set_led m b v) = LedWriter.writeBuffer m := by
  constructor
  · decide
  · intro b hB m v
    apply ledWriteBuffer_ext (keys_entriesOf_nodup _) (keys_entriesOf_nodup _)
    intro b' w a hA
    have hne : b' ≠ b := fun he => by rw [he, hB] at hA; cases hA
    rw [mem_entriesOf, mem_entriesOf]
    simp [set_led, hne]

/-- C8 witness: `set_led(DeckA.Browse, 99)` on an empty writer produces the
same buffer as the empty writer. -/
theorem set_led_no_table_entry_spec_witness :
    LedWriter.writeBuffer (set_led (fun _ => none) (Button.DeckA .Browse) 99) =
      LedWriter.writeBuffer (fun _ => none) :=
  set_led_no_table_entry_spec.2 (Button.DeckA .Browse) (by decide) (fun _ => none) 99

/-- C5: every failing bulk transfer of the protocol layer — the state read,
the LED write, and the 1-byte confirmation read after a successful write — is
mapped through the same error translation: a transport timeout becomes the
distinct `X1Error.Timeout`, and every other transport failure becomes
`X1Error.Libusb` preserving the underlying cause; failures are returned, never
swallowed. -/
theorem transfer_error_mapping :
    mapTransferErr RusbError.Timeout = X1Error.Timeout
    ∧ ∀ e : RusbError,
        read_state (Except.error e) = Except.error (mapTransferErr e)
        ∧ (∀ (m : Button → Option Nat) (c : Except RusbError Nat),
            LedWriter.write m (fun _ => Except.error e) c =
              Except.error (mapTransferErr e))
        ∧ (∀ (m : Button → Option Nat) (n : Nat),
            LedWriter.write m (fun _ => Except.ok n) (Except.error e) =
              Except.error (mapTransferErr e))
        ∧ (e ≠ RusbError.Timeout → mapTransferErr e = X1Error.Libusb e) := by
  refine ⟨rfl, fun e => ⟨rfl, fun m c => rfl, fun m n => rfl, fun hne => ?_⟩⟩
  cases e <;> first | rfl | exact absurd rfl hne

/-- C5 witness: a non-timeout failure (`Pipe`) on the confirmation read after
a successful write surfaces as the generic transport error with its cause. -/
theorem transfer_error_mapping_witness :
    LedWriter.write (fun _ => none) (fun _ => Except.ok 32)
        (Except.error RusbError.Pipe) =
      Except.error (X1Error.Libusb RusbError.Pipe) := by
  have h := transfer_error_mapping.2 RusbError.Pipe
  rw [h.2.2.1 (fun _ => none) 32, h.2.2.2 (by decide)]

/-- C10: decoding ignores report bytes 0, 6 and 7 — two reports agreeing on
bytes 1–5 and 8–23 decode to snapshots answering every button and knob query
identically. -/
theorem decode_ignores_bytes_0_6_7 :
    ∀ buf1 buf2 : Fin 24 → Nat,
      (∀ i : Fin 24, i.val ≠ 0 → i.val ≠ 6 → i.val ≠ 7 → buf1 i = buf2 i) →
      (∀ button : Button,
        (X1State.new buf1).is_button_pressed button =
          (X1State.new buf2).is_button_pressed button)
      ∧ ∀ knob : Knob,
          (X1State.new buf1).read_knob knob = (X1State.new buf2).read_knob knob := by
  intro buf1 buf2 h
  have hst : ∀ g : Fin 5, buf1 ⟨g.val + 1, by omega⟩ = buf2 ⟨g.val + 1, by omega⟩ := by
    intro g
    apply h
    all_goals
      show g.val + 1 ≠ _
      have := g.isLt
      omega
  have heq : X1State.new buf1 = X1State.new buf2 := by
    unfold X1State.new
    congr 1
    · funext g i
      rw [hst g]
    · funext k
      fin_cases k <;>
      · show (buf1 _, buf1 _) = (buf2 _, buf2 _)
        rw [h _ (by decide) (by decide) (by decide),
          h _ (by decide) (by decide) (by decide)]
  rw [heq]
  exact ⟨fun _ => rfl, fun _ => rfl⟩

/-- C10 witness: a report with junk at bytes 0, 6 and 7 decodes to the same
query answers as the all-zero report. -/
theorem decode_ignores_bytes_0_6_7_witness :
    (X1State.new reportJunk067).is_button_pressed Button.Shift =
      (X1State.new reportZero).is_button_pressed Button.Shift ∧
    (X1State.new reportJunk067).read_knob (.FX1 .DryWet) =
      (X1State.new reportZero).read_knob (.FX1 .DryWet) := by
  have h := decode_ignores_bytes_0_6_7 reportJunk067 reportZero (by decide)
  exact ⟨h.1 Button.Shift, h.2 (.FX1 .DryWet)⟩
